import Mathlib

/-!
Verification of the nano-banana-product-placer repository: a shallow
embedding of the Gemini service module (`convertDataUrlToGeminiPart`,
`generateProductPlacementImage`) and of the `ImageUploader` component
(`handleFileChange`, `handleClear`), together with theorems settling the
specification claims about them.
-/

namespace NanoBanana

/-! ## Data model -/

/-- An inline-data request/response part payload: the object
`\x7b data, mimeType \x7d` built by `convertDataUrlToGeminiPart`. -/
structure InlineData where
  data : String
  mimeType : String
  deriving Repr, DecidableEq

/-- A content part of a Gemini request or response: either inline image
data, or text, or (in a response) neither. -/
structure Part where
  inlineData : Option InlineData := none
  text : Option String := none
  deriving Repr, DecidableEq

/-- Response modalities requested in the config. -/
inductive Modality where
  | IMAGE
  | TEXT
  deriving Repr, DecidableEq

/-- The request payload handed to `ai.models.generateContent`. -/
structure RequestPayload where
  model : String
  parts : List Part
  responseModalities : List Modality
  deriving Repr, DecidableEq

/-- `candidate.content` in a Gemini response. -/
structure Content where
  parts : List Part
  deriving Repr, DecidableEq

/-- One candidate of a Gemini response; `content` may be absent. -/
structure Candidate where
  content : Option Content
  deriving Repr, DecidableEq

/-- A Gemini response: a list of candidates and the top-level convenience
`text` field the code reads (`response.text`), which may be absent. -/
structure GenResponse where
  candidates : List Candidate
  text : Option String
  deriving Repr, DecidableEq

/-- A browser `File`: its declared MIME type and raw bytes. -/
structure BrowserFile where
  type : String
  bytes : List Nat
  deriving Repr, DecidableEq

/-- The `ImageFile` record of `types.ts`, as built by the uploader:
`\x7b file, base64Url \x7d`. -/
structure ImageFile where
  file : BrowserFile
  base64Url : String
  deriving Repr, DecidableEq

/-! ## Data-URL parsing (`convertDataUrlToGeminiPart`) -/

/-- `dataUrl.split(',')`: split a character list at every comma, keeping
empty segments, as JavaScript `String.prototype.split` does. -/
def splitOnComma : List Char → List (List Char)
  | [] => [[]]
  | c :: rest =>
    if c = ',' then [] :: splitOnComma rest
    else
      match splitOnComma rest with
      | [] => [[c]]
      | h :: t => (c :: h) :: t

/-- The characters before the first `;`, or `none` when there is no `;`:
the lazy capture of the regex `:(.*?);` once a `:` has been consumed. -/
def takeUntilSemi : List Char → Option (List Char)
  | [] => none
  | c :: rest =>
    if c = ';' then some []
    else (takeUntilSemi rest).map (fun m => c :: m)

/-- `s.match(/:(.*?);/)?.[1]`: the first occurrence of a `:` followed
later by a `;`, capturing the characters in between (lazily, up to the
first `;` after that `:`). -/
def matchMime : List Char → Option (List Char)
  | [] => none
  | c :: rest =>
    if c = ':' then
      match takeUntilSemi rest with
      | some m => some m
      | none => matchMime rest
    else matchMime rest

/-- `convertDataUrlToGeminiPart` from the service module: split the data
URL on commas, extract the MIME type from segment 0 with `/:(.*?);/` and
take segment 1 as the base64 payload; throw `"Invalid data URL"` when
either is missing or empty (JavaScript falsiness of `undefined` and
`""`). -/
def convertDataUrlToGeminiPart (dataUrl : String) : Except String InlineData :=
  let parts := splitOnComma dataUrl.toList
  let mimeType : Option (List Char) := matchMime (parts.headD [])
  let base64Data : Option (List Char) := parts[1]?
  match mimeType, base64Data with
  | some m, some b =>
    if m = [] ∨ b = [] then Except.error "Invalid data URL"
    else Except.ok ⟨String.mk b, String.mk m⟩
  | _, _ => Except.error "Invalid data URL"

/-! ## The generation client (`generateProductPlacementImage`) -/

/-- The fixed instruction string of the service module. -/
def instructionText : String :=
  "Analyze the first image (the character) and the second image (the product). Generate a new image where the character is naturally using or interacting with the product. The final output image MUST maintain the exact same aspect ratio and dimensions as the first (character) image. The art style should also match the character image."

/-- `response.candidates?.[0]?.content?.parts || []`. -/
def responseParts (r : GenResponse) : List Part :=
  ((r.candidates[0]?).bind (fun c => c.content)).map Content.parts |>.getD []

/-- Drop leading and trailing whitespace characters: JavaScript
`String.prototype.trim`. -/
def trimChars (l : List Char) : List Char :=
  ((l.dropWhile Char.isWhitespace).reverse.dropWhile Char.isWhitespace).reverse

/-- `textResponse.trim()` as applied by the service module. -/
def jsTrim (s : String) : String :=
  String.mk (trimChars s.toList)

/-- JavaScript truthiness of `part.inlineData?.data`: the part carries a
non-empty inline base64 payload. -/
def isInlineImagePart (p : Part) : Bool :=
  match p.inlineData with
  | some d => d.data ≠ ""
  | none => false

/-- The outcome of one invocation: the resolved value (`some` payload or
`null`) or a thrown error message. -/
inductive GenOutcome where
  | ok (result : Option String)
  | error (msg : String)
  deriving Repr, DecidableEq

/-- The request payload handed to `ai.models.generateContent`: the parts
array `[characterPart, productPart, textPart]` in that order, the model
name, and the requested response modalities. -/
def buildRequest (characterPart productPart : InlineData) : RequestPayload :=
  { model := "gemini-2.5-flash-image-preview"
    parts := [{ inlineData := some characterPart },
              { inlineData := some productPart },
              { text := some instructionText }]
    responseModalities := [Modality.IMAGE, Modality.TEXT] }

/-- `generateProductPlacementImage`, parameterised by the remote call
(`remote` either returns a response or fails with an error message).
Returns the outcome together with the list of network requests actually
issued. Every error thrown inside the `try` block is re-wrapped by the
`catch` handler as `"Failed to generate image: " ++ message`. -/
def generateProductPlacementImage (characterImage productImage : ImageFile)
    (remote : RequestPayload → Except String GenResponse) :
    GenOutcome × List RequestPayload :=
  match convertDataUrlToGeminiPart characterImage.base64Url with
  | Except.error e => (GenOutcome.error ("Failed to generate image: " ++ e), [])
  | Except.ok characterPart =>
    match convertDataUrlToGeminiPart productImage.base64Url with
    | Except.error e => (GenOutcome.error ("Failed to generate image: " ++ e), [])
    | Except.ok productPart =>
      let req : RequestPayload := buildRequest characterPart productPart
      match remote req with
      | Except.error e => (GenOutcome.error ("Failed to generate image: " ++ e), [req])
      | Except.ok response =>
        match (responseParts response).find? isInlineImagePart with
        | some p =>
          (GenOutcome.ok (p.inlineData.map InlineData.data), [req])
        | none =>
          let textResponse := jsTrim (response.text.getD "")
          if textResponse ≠ "" then
            (GenOutcome.error ("Failed to generate image: " ++ ("Model response: " ++ textResponse)), [req])
          else
            (GenOutcome.ok none, [req])

/-! ## Module initialization (`API_KEY`) -/

/-- The module-level credential check: read `process.env.API_KEY`; if it
is falsy (absent or empty) throw before anything else can run, otherwise
initialize with the key. -/
def moduleInit (envApiKey : Option String) : Except String String :=
  match envApiKey with
  | none => Except.error "API_KEY environment variable not set"
  | some k =>
    if k = "" then Except.error "API_KEY environment variable not set"
    else Except.ok k

/-! ## Base64 and the browser `FileReader` encoding -/

/-- The standard base64 alphabet, sextet value to character. -/
def base64Chars : List Char :=
  ['A', 'B', 'C', 'D', 'E', 'F', 'G', 'H', 'I', 'J', 'K', 'L', 'M',
   'N', 'O', 'P', 'Q', 'R', 'S', 'T', 'U', 'V', 'W', 'X', 'Y', 'Z',
   'a', 'b', 'c', 'd', 'e', 'f', 'g', 'h', 'i', 'j', 'k', 'l', 'm',
   'n', 'o', 'p', 'q', 'r', 's', 't', 'u', 'v', 'w', 'x', 'y', 'z',
   '0', '1', '2', '3', '4', '5', '6', '7', '8', '9', '+', '/']

/-- The base64 character of a sextet value. -/
def sextetToChar (s : Nat) : Char :=
  base64Chars.getD s 'A'

/-- The index of a character in a list, if present. -/
def indexOfChar : List Char → Char → Option Nat
  | [], _ => none
  | a :: as, c =>
    if a = c then some 0 else (indexOfChar as c).map (· + 1)

/-- The sextet value of a base64 character, if it is one. -/
def charToSextet (c : Char) : Option Nat :=
  indexOfChar base64Chars c

/-- Standard base64 encoding of a byte sequence, with `=` padding, three
bytes to four characters. -/
def base64EncodeBytes : List Nat → List Char
  | [] => []
  | [b1] =>
    [sextetToChar (b1 / 4), sextetToChar (b1 % 4 * 16), '=', '=']
  | [b1, b2] =>
    [sextetToChar (b1 / 4), sextetToChar (b1 % 4 * 16 + b2 / 16),
     sextetToChar (b2 % 16 * 4), '=']
  | b1 :: b2 :: b3 :: rest =>
    sextetToChar (b1 / 4) :: sextetToChar (b1 % 4 * 16 + b2 / 16) ::
    sextetToChar (b2 % 16 * 4 + b3 / 64) :: sextetToChar (b3 % 64) ::
    base64EncodeBytes rest

/-- Strict base64 decoding, four characters to up to three bytes, `=`
padding only at the very end. -/
def base64DecodeChars : List Char → Option (List Nat)
  | [] => some []
  | c1 :: c2 :: c3 :: c4 :: rest =>
    match charToSextet c1, charToSextet c2 with
    | some s1, some s2 =>
      if c3 = '=' then
        if c4 = '=' ∧ rest = [] then some [s1 * 4 + s2 / 16] else none
      else
        match charToSextet c3 with
        | some s3 =>
          if c4 = '=' then
            if rest = [] then some [s1 * 4 + s2 / 16, s2 % 16 * 16 + s3 / 4]
            else none
          else
            match charToSextet c4, base64DecodeChars rest with
            | some s4, some bs =>
              some ((s1 * 4 + s2 / 16) :: (s2 % 16 * 16 + s3 / 4) ::
                    (s3 % 4 * 64 + s4) :: bs)
            | _, _ => none
        | none => none
    | _, _ => none
  | _ => none

/-- Modelled from the spec: the browser `FileReader.readAsDataURL` result
used by the uploader, which is not part of the repository. Per the spec,
the produced data URL is self-describing:
`data:<mimeType>;base64,<payload>` with the payload the base64 encoding
of the file bytes. -/
def readAsDataURL (f : BrowserFile) : String :=
  "data:" ++ f.type ++ ";base64," ++ String.mk (base64EncodeBytes f.bytes)

/-! ## The Uploader (`ImageUploader`) -/

/-- The uploader's mutable state: the `imagePreview` React state and the
value of the underlying file input element (`fileInputRef.current.value`). -/
structure UploaderState where
  imagePreview : Option String
  inputValue : String
  deriving Repr, DecidableEq

/-- `handleFileChange`: given the selected file (or none), if the file
exists and its declared type starts with `image/`, read it as a data URL,
set the preview and notify the owner with the `ImageFile`; otherwise
clear the preview and notify the owner with `null`. Returns the new state
and the value delivered to `onImageUpload`. It never throws. -/
def handleFileChange (s : UploaderState) (file : Option BrowserFile) :
    UploaderState × Option ImageFile :=
  match file with
  | some f =>
    if "image/".toList.isPrefixOf f.type.toList then
      let base64Url := readAsDataURL f
      ({ s with imagePreview := some base64Url }, some { file := f, base64Url := base64Url })
    else ({ s with imagePreview := none }, none)
  | none => ({ s with imagePreview := none }, none)

/-- `handleClear`: reset the preview, notify the owner with `null`, and
reset the file input element's value to the empty string. Returns the new
state and the value delivered to `onImageUpload`. -/
def handleClear (s : UploaderState) : UploaderState × Option ImageFile :=
  ({ s with imagePreview := none, inputValue := "" }, none)

/-! ## Claim-level predicates on data URLs -/

/-- The data URL's header (the segment before the first comma, or the
whole string when there is no comma) carries a non-empty MIME-type token
`:<mime>;`. -/
def hasMimeToken (dataUrl : String) : Bool :=
  match matchMime (dataUrl.toList.takeWhile (fun c => c ≠ ',')) with
  | some m => decide (m ≠ [])
  | none => false

/-- The data URL has a comma separator and a non-empty payload after the
first comma. -/
def hasBase64Payload (dataUrl : String) : Bool :=
  let l := dataUrl.toList
  if ',' ∈ l then !((l.dropWhile (fun c => c ≠ ',')).tail.isEmpty) else false

/-! ## Lemmas about comma splitting and MIME matching -/

theorem splitOnComma_ne_nil (l : List Char) : splitOnComma l ≠ [] := by
  induction l with
  | nil => simp [splitOnComma]
  | cons c rest ih =>
    by_cases hc : c = ','
    · simp [splitOnComma, hc]
    · simp only [splitOnComma, if_neg hc]
      rcases h : splitOnComma rest with _ | ⟨a, t⟩
      · simp
      · simp

theorem splitOnComma_headD (l : List Char) :
    (splitOnComma l).headD [] = l.takeWhile (fun c => c ≠ ',') := by
  induction l with
  | nil => simp [splitOnComma]
  | cons c rest ih =>
    by_cases hc : c = ','
    · subst hc
      rw [List.takeWhile_cons_of_neg (by simp)]
      simp [splitOnComma]
    · simp only [splitOnComma, if_neg hc]
      rcases h : splitOnComma rest with _ | ⟨a, t⟩
      · exact absurd h (splitOnComma_ne_nil rest)
      · rw [h] at ih
        simp only [List.headD_cons] at ih ⊢
        rw [List.takeWhile_cons_of_pos (by simp [hc]), ih]

theorem splitOnComma_of_not_mem (l : List Char) (h : ',' ∉ l) :
    splitOnComma l = [l] := by
  induction l with
  | nil => simp [splitOnComma]
  | cons c rest ih =>
    have hc : c ≠ ',' := fun hceq => h (hceq ▸ List.mem_cons_self c rest)
    have hrest : ',' ∉ rest := fun hm => h (List.mem_cons_of_mem c hm)
    simp only [splitOnComma, if_neg hc, ih hrest]

theorem splitOnComma_append (a b : List Char) (h : ',' ∉ a) :
    splitOnComma (a ++ ',' :: b) = a :: splitOnComma b := by
  induction a with
  | nil => simp [splitOnComma]
  | cons c rest ih =>
    have hc : c ≠ ',' := fun hceq => h (hceq ▸ List.mem_cons_self c rest)
    have hrest : ',' ∉ rest := fun hm => h (List.mem_cons_of_mem c hm)
    rw [List.cons_append]
    simp only [splitOnComma, if_neg hc, ih hrest]

theorem takeUntilSemi_append (a r : List Char) (h : ';' ∉ a) :
    takeUntilSemi (a ++ ';' :: r) = some a := by
  induction a with
  | nil => simp [takeUntilSemi]
  | cons c rest ih =>
    have hc : c ≠ ';' := fun hceq => h (hceq ▸ List.mem_cons_self c rest)
    have hrest : ';' ∉ rest := fun hm => h (List.mem_cons_of_mem c hm)
    rw [List.cons_append]
    simp [takeUntilSemi, hc, ih hrest]

theorem matchMime_header (t r : List Char) (h : ';' ∉ t) :
    matchMime ('d' :: 'a' :: 't' :: 'a' :: ':' :: (t ++ ';' :: r)) = some t := by
  simp [matchMime, takeUntilSemi_append t r h]

/-- Let-free unfolding of `convertDataUrlToGeminiPart`. -/
theorem convert_eq (u : String) :
    convertDataUrlToGeminiPart u =
      match matchMime ((splitOnComma u.toList).headD []), (splitOnComma u.toList)[1]? with
      | some m, some b =>
        if m = [] ∨ b = [] then Except.error "Invalid data URL"
        else Except.ok ⟨String.mk b, String.mk m⟩
      | _, _ => Except.error "Invalid data URL" := rfl

/-- `convertDataUrlToGeminiPart` only ever throws `"Invalid data URL"`. -/
theorem convert_error_msg (u : String) (e : String)
    (h : convertDataUrlToGeminiPart u = Except.error e) : e = "Invalid data URL" := by
  rw [convert_eq] at h
  rcases hm : matchMime ((splitOnComma u.toList).headD []) with _ | m <;>
    rcases hb : (splitOnComma u.toList)[1]? with _ | b <;>
      simp only [hm, hb] at h
  · exact (Except.error.injEq _ _).mp h.symm
  · exact (Except.error.injEq _ _).mp h.symm
  · exact (Except.error.injEq _ _).mp h.symm
  · by_cases hme : m = [] ∨ b = [] <;> simp [hme] at h
    exact h.symm

/-- A character list containing a comma decomposes at its first comma. -/
theorem comma_decomp (l : List Char) (hmem : ',' ∈ l) :
    l = l.takeWhile (fun c => c ≠ ',') ++
        ',' :: (l.dropWhile (fun c => c ≠ ',')).tail := by
  induction l with
  | nil => simp at hmem
  | cons c rest ih =>
    by_cases hc : c = ','
    · subst hc
      rw [List.takeWhile_cons_of_neg (by simp), List.dropWhile_cons_of_neg (by simp)]
      simp
    · have hrest : ',' ∈ rest := by
        rcases List.mem_cons.mp hmem with h | h
        · exact absurd h.symm hc
        · exact h
      rw [List.takeWhile_cons_of_pos (by simp [hc]), List.dropWhile_cons_of_pos (by simp [hc])]
      rw [List.cons_append]
      exact congrArg (c :: ·) (ih hrest)

/-- A data URL lacking a MIME-type token or a non-empty payload after the
first comma makes `convertDataUrlToGeminiPart` throw. -/
theorem convert_error_of_malformed (u : String)
    (h : hasMimeToken u = false ∨ hasBase64Payload u = false) :
    convertDataUrlToGeminiPart u = Except.error "Invalid data URL" := by
  rw [convert_eq]
  rcases h with h | h
  · unfold hasMimeToken at h
    rw [splitOnComma_headD]
    rcases hm : matchMime (u.toList.takeWhile (fun c => c ≠ ',')) with _ | m
    · rcases hb : (splitOnComma u.toList)[1]? with _ | b <;> simp [hm, hb]
    · rw [hm] at h
      simp only [decide_eq_false_iff_not, Decidable.not_not] at h
      rcases hb : (splitOnComma u.toList)[1]? with _ | b <;> simp [hm, hb, h]
  · unfold hasBase64Payload at h
    simp only at h
    by_cases hmem : ',' ∈ u.toList
    · rw [if_pos hmem] at h
      simp only [Bool.not_eq_false', List.isEmpty_iff] at h
      have hnc : ',' ∉ u.toList.takeWhile (fun c => c ≠ ',') := by
        intro hmm
        have := List.mem_takeWhile_imp hmm
        simp at this
      have hdec := comma_decomp u.toList hmem
      rw [h] at hdec
      conv_lhs => rw [hdec]
      rw [splitOnComma_append _ _ hnc]
      rcases hm : matchMime ((u.toList.takeWhile (fun c => c ≠ ',') :: splitOnComma []).headD []) with _ | m <;>
        simp [hm, splitOnComma]
    · rw [if_neg hmem] at h
      rw [splitOnComma_of_not_mem u.toList hmem]
      rcases hm : matchMime (([u.toList]).headD []) with _ | m <;> simp [hm]

/-- Let-free unfolding of `generateProductPlacementImage`. -/
theorem generate_eq (c p : ImageFile)
    (remote : RequestPayload → Except String GenResponse) :
    generateProductPlacementImage c p remote =
      match convertDataUrlToGeminiPart c.base64Url with
      | Except.error e => (GenOutcome.error ("Failed to generate image: " ++ e), [])
      | Except.ok cp =>
        match convertDataUrlToGeminiPart p.base64Url with
        | Except.error e => (GenOutcome.error ("Failed to generate image: " ++ e), [])
        | Except.ok pp =>
          match remote (buildRequest cp pp) with
          | Except.error e =>
            (GenOutcome.error ("Failed to generate image: " ++ e), [buildRequest cp pp])
          | Except.ok response =>
            match (responseParts response).find? isInlineImagePart with
            | some pt =>
              (GenOutcome.ok (pt.inlineData.map InlineData.data), [buildRequest cp pp])
            | none =>
              if jsTrim (response.text.getD "") ≠ "" then
                (GenOutcome.error ("Failed to generate image: " ++
                   ("Model response: " ++ jsTrim (response.text.getD ""))), [buildRequest cp pp])
              else (GenOutcome.ok none, [buildRequest cp pp]) := rfl

/-! ## Sample inputs used by the witnesses -/

def sampleCharImage : ImageFile :=
  { file := { type := "image/png", bytes := [1, 2, 3] }
    base64Url := "data:image/png;base64,AQID" }

def sampleProdImage : ImageFile :=
  { file := { type := "image/jpeg", bytes := [4] }
    base64Url := "data:image/jpeg;base64,BA==" }

/-- A data URL with no comma separator at all. -/
def noCommaImage : ImageFile :=
  { file := { type := "image/png", bytes := [] }
    base64Url := "data:image/png;base64" }

/-- A remote call that succeeds with an empty response. -/
def emptyRemote : RequestPayload → Except String GenResponse :=
  fun _ => Except.ok { candidates := [], text := none }

/-! ## Claim theorems -/

/-- C1: for every pair of input images, if either input's data URL lacks a
MIME-type token or lacks a non-empty base64 payload after the first comma
(including a data URL with no comma separator), then
`generateProductPlacementImage` fails with the malformed-input error and
issues no network request. -/
theorem c1_malformed_data_url_fails_before_network
    (characterImage productImage : ImageFile)
    (remote : RequestPayload → Except String GenResponse)
    (h : hasMimeToken characterImage.base64Url = false ∨
         hasBase64Payload characterImage.base64Url = false ∨
         hasMimeToken productImage.base64Url = false ∨
         hasBase64Payload productImage.base64Url = false) :
    generateProductPlacementImage characterImage productImage remote =
      (GenOutcome.error "Failed to generate image: Invalid data URL", []) := by
  rw [generate_eq]
  rcases h with h | h | h | h
  · rw [convert_error_of_malformed _ (Or.inl h)]
    rfl
  · rw [convert_error_of_malformed _ (Or.inr h)]
    rfl
  · rcases hc : convertDataUrlToGeminiPart characterImage.base64Url with e | cp
    · have he := convert_error_msg _ _ hc
      subst he
      rfl
    · rw [convert_error_of_malformed _ (Or.inl h)]
      rfl
  · rcases hc : convertDataUrlToGeminiPart characterImage.base64Url with e | cp
    · have he := convert_error_msg _ _ hc
      subst he
      rfl
    · rw [convert_error_of_malformed _ (Or.inr h)]
      rfl

theorem c1_malformed_data_url_fails_before_network_witness :
    hasBase64Payload noCommaImage.base64Url = false ∧
    generateProductPlacementImage noCommaImage sampleProdImage emptyRemote =
      (GenOutcome.error "Failed to generate image: Invalid data URL", []) :=
  ⟨by decide,
   c1_malformed_data_url_fails_before_network noCommaImage sampleProdImage emptyRemote
     (Or.inr (Or.inl (by decide)))⟩

/-- `List.find?` returns the element at the first index satisfying the
predicate, when all earlier indices fail it. -/
theorem find?_eq_of_first {α : Type} (p : α → Bool) :
    ∀ (l : List α) (i : Nat) (b : α), l[i]? = some b → p b = true →
      (∀ j, j < i → ∀ a, l[j]? = some a → p a = false) →
      l.find? p = some b
  | [], _, b, h, _, _ => by simp at h
  | x :: xs, 0, b, h, hb, _ => by
    simp only [List.getElem?_cons_zero, Option.some.injEq] at h
    subst h
    exact List.find?_cons_of_pos _ hb
  | x :: xs, i + 1, b, h, hb, hfirst => by
    have hx : p x = false := hfirst 0 (Nat.succ_pos i) x (by simp)
    rw [List.find?_cons_of_neg _ (by simp [hx])]
    exact find?_eq_of_first p xs i b (by simpa using h) hb
      (fun j hj a ha => hfirst (j + 1) (Nat.succ_lt_succ hj) a (by simpa using ha))

/-- C2: for every well-formed pair of inputs, the single request built by
`generateProductPlacementImage` contains exactly three parts in order:
the character image part, the product image part, and the fixed
instruction text part. -/
theorem c2_request_has_three_parts_in_order
    (characterImage productImage : ImageFile)
    (remote : RequestPayload → Except String GenResponse)
    (cp pp : InlineData)
    (hc : convertDataUrlToGeminiPart characterImage.base64Url = Except.ok cp)
    (hp : convertDataUrlToGeminiPart productImage.base64Url = Except.ok pp) :
    (generateProductPlacementImage characterImage productImage remote).2.map
        RequestPayload.parts =
      [[{ inlineData := some cp, text := none },
        { inlineData := some pp, text := none },
        { inlineData := none, text := some instructionText }]] := by
  rw [generate_eq]
  simp only [hc, hp]
  rcases hr : remote (buildRequest cp pp) with e | resp
  · simp only [hr]
    rfl
  · simp only [hr]
    rcases hf : (responseParts resp).find? isInlineImagePart with _ | pt
    · simp only [hf]
      by_cases ht : jsTrim (resp.text.getD "") ≠ ""
      · rw [if_pos ht]
        rfl
      · rw [if_neg ht]
        rfl
    · simp only [hf]
      rfl

theorem c2_request_has_three_parts_in_order_witness :
    convertDataUrlToGeminiPart sampleCharImage.base64Url =
        Except.ok { data := "AQID", mimeType := "image/png" } ∧
    (generateProductPlacementImage sampleCharImage sampleProdImage emptyRemote).2.map
        RequestPayload.parts =
      [[{ inlineData := some { data := "AQID", mimeType := "image/png" }, text := none },
        { inlineData := some { data := "BA==", mimeType := "image/jpeg" }, text := none },
        { inlineData := none, text := some instructionText }]] :=
  ⟨rfl,
   c2_request_has_three_parts_in_order sampleCharImage sampleProdImage emptyRemote
     { data := "AQID", mimeType := "image/png" }
     { data := "BA==", mimeType := "image/jpeg" }
     rfl rfl⟩

/-- C3: when the response's content parts include an inline image part,
`generateProductPlacementImage` resolves with exactly the base64 payload
of the first such part in scan order, ignoring all later ones. -/
theorem c3_first_inline_image_part_wins
    (characterImage productImage : ImageFile)
    (remote : RequestPayload → Except String GenResponse)
    (cp pp : InlineData) (resp : GenResponse) (i : Nat) (pt : Part) (d : InlineData)
    (hc : convertDataUrlToGeminiPart characterImage.base64Url = Except.ok cp)
    (hp : convertDataUrlToGeminiPart productImage.base64Url = Except.ok pp)
    (hr : remote (buildRequest cp pp) = Except.ok resp)
    (hi : (responseParts resp)[i]? = some pt)
    (hinline : pt.inlineData = some d)
    (hdata : d.data ≠ "")
    (hfirst : ∀ j, j < i → ∀ q, (responseParts resp)[j]? = some q →
      isInlineImagePart q = false) :
    (generateProductPlacementImage characterImage productImage remote).1 =
      GenOutcome.ok (some d.data) := by
  have hpt : isInlineImagePart pt = true := by
    simp [isInlineImagePart, hinline, hdata]
  have hfind := find?_eq_of_first isInlineImagePart (responseParts resp) i pt hi hpt hfirst
  rw [generate_eq]
  simp [hc, hp, hr, hfind, hinline]

/-- A response whose first candidate carries two inline image parts. -/
def twoImageResponse : GenResponse :=
  { candidates :=
      [{ content := some { parts :=
          [{ inlineData := some { data := "AAAA", mimeType := "image/png" }, text := none },
           { inlineData := some { data := "BBBB", mimeType := "image/png" }, text := none }] } }]
    text := none }

def twoImageRemote : RequestPayload → Except String GenResponse :=
  fun _ => Except.ok twoImageResponse

theorem c3_first_inline_image_part_wins_witness :
    (responseParts twoImageResponse)[0]? =
        some { inlineData := some { data := "AAAA", mimeType := "image/png" }, text := none } ∧
    (generateProductPlacementImage sampleCharImage sampleProdImage twoImageRemote).1 =
      GenOutcome.ok (some "AAAA") :=
  ⟨by decide,
   c3_first_inline_image_part_wins sampleCharImage sampleProdImage twoImageRemote
     { data := "AQID", mimeType := "image/png" }
     { data := "BA==", mimeType := "image/jpeg" }
     twoImageResponse 0
     { inlineData := some { data := "AAAA", mimeType := "image/png" }, text := none }
     { data := "AAAA", mimeType := "image/png" }
     rfl rfl rfl (by decide) rfl (by decide)
     (fun j hj _ _ => absurd hj (Nat.not_lt_zero j))⟩

/-- C4: when the response has no inline image part and its trimmed
top-level text is non-empty, `generateProductPlacementImage` fails with
an error whose message contains that text as a substring. -/
theorem c4_refusal_text_embedded_in_error
    (characterImage productImage : ImageFile)
    (remote : RequestPayload → Except String GenResponse)
    (cp pp : InlineData) (resp : GenResponse)
    (hc : convertDataUrlToGeminiPart characterImage.base64Url = Except.ok cp)
    (hp : convertDataUrlToGeminiPart productImage.base64Url = Except.ok pp)
    (hr : remote (buildRequest cp pp) = Except.ok resp)
    (hnoimg : ∀ q ∈ responseParts resp, isInlineImagePart q = false)
    (htext : jsTrim (resp.text.getD "") ≠ "") :
    ∃ u v, (generateProductPlacementImage characterImage productImage remote).1 =
      GenOutcome.error (u ++ jsTrim (resp.text.getD "") ++ v) := by
  have hfind : (responseParts resp).find? isInlineImagePart = none :=
    List.find?_eq_none.mpr (fun x hx => by simp [hnoimg x hx])
  refine ⟨"Failed to generate image: Model response: ", "", ?_⟩
  rw [generate_eq]
  simp only [hc, hp, hr, hfind]
  rw [if_pos htext, String.append_empty]
  have : ("Failed to generate image: Model response: " : String) =
      "Failed to generate image: " ++ "Model response: " := rfl
  rw [this, String.append_assoc]

/-- A response with no parts whose top-level text is a refusal. -/
def refusalResponse : GenResponse :=
  { candidates := [], text := some "Cannot comply" }

def refusalRemote : RequestPayload → Except String GenResponse :=
  fun _ => Except.ok refusalResponse

theorem c4_refusal_text_embedded_in_error_witness :
    (jsTrim (refusalResponse.text.getD "") ≠ "") ∧
    ∃ u v, (generateProductPlacementImage sampleCharImage sampleProdImage refusalRemote).1 =
      GenOutcome.error (u ++ jsTrim (refusalResponse.text.getD "") ++ v) :=
  ⟨by decide,
   c4_refusal_text_embedded_in_error sampleCharImage sampleProdImage refusalRemote
     { data := "AQID", mimeType := "image/png" }
     { data := "BA==", mimeType := "image/jpeg" }
     refusalResponse rfl rfl rfl
     (fun q hq => absurd hq (List.not_mem_nil q)) (by decide)⟩

/-- C5: when the response has no inline image part and its trimmed
top-level text is empty or absent, `generateProductPlacementImage`
resolves with `null` and does not throw. -/
theorem c5_no_image_no_text_returns_null
    (characterImage productImage : ImageFile)
    (remote : RequestPayload → Except String GenResponse)
    (cp pp : InlineData) (resp : GenResponse)
    (hc : convertDataUrlToGeminiPart characterImage.base64Url = Except.ok cp)
    (hp : convertDataUrlToGeminiPart productImage.base64Url = Except.ok pp)
    (hr : remote (buildRequest cp pp) = Except.ok resp)
    (hnoimg : ∀ q ∈ responseParts resp, isInlineImagePart q = false)
    (htext : jsTrim (resp.text.getD "") = "") :
    (generateProductPlacementImage characterImage productImage remote).1 =
      GenOutcome.ok none := by
  have hfind : (responseParts resp).find? isInlineImagePart = none :=
    List.find?_eq_none.mpr (fun x hx => by simp [hnoimg x hx])
  rw [generate_eq]
  simp only [hc, hp, hr, hfind]
  rw [if_neg (by simp [htext])]

theorem c5_no_image_no_text_returns_null_witness :
    (generateProductPlacementImage sampleCharImage sampleProdImage emptyRemote).1 =
      GenOutcome.ok none :=
  c5_no_image_no_text_returns_null sampleCharImage sampleProdImage emptyRemote
    { data := "AQID", mimeType := "image/png" }
    { data := "BA==", mimeType := "image/jpeg" }
    { candidates := [], text := none } rfl rfl rfl
    (fun q hq => absurd hq (List.not_mem_nil q)) rfl

/-- C6: if the configured API credential is absent from the process
environment at startup, module initialization throws before any
operation can run. -/
theorem c6_missing_credential_refuses_to_initialize :
    moduleInit none = Except.error "API_KEY environment variable not set" := rfl

/-- C7: for every file-selection event where the selected file is absent
or its declared MIME type does not start with `image/`, `handleFileChange`
clears the preview and notifies the owner with `null`; being a total
function, it throws no error. -/
theorem c7_non_image_file_clears_and_notifies_null
    (s : UploaderState) (file : Option BrowserFile)
    (h : file = none ∨ ∀ f, file = some f →
      "image/".toList.isPrefixOf f.type.toList = false) :
    handleFileChange s file = ({ s with imagePreview := none }, none) := by
  rcases file with _ | f
  · rfl
  · rcases h with h | h
    · exact absurd h (Option.some_ne_none f)
    · have hf := h f rfl
      simp only [handleFileChange]
      rw [if_neg (by rw [hf]; exact Bool.false_ne_true)]

theorem c7_non_image_file_clears_and_notifies_null_witness :
    handleFileChange { imagePreview := some "data:image/png;base64,AQID", inputValue := "" }
        (some { type := "text/plain", bytes := [104, 105] }) =
      ({ imagePreview := none, inputValue := "" }, none) :=
  c7_non_image_file_clears_and_notifies_null
    { imagePreview := some "data:image/png;base64,AQID", inputValue := "" }
    (some { type := "text/plain", bytes := [104, 105] })
    (Or.inr (fun f hf => by cases hf; decide))

/-- C8: from every state in which an image has been accepted (a preview is
present), `handleClear` resets the preview, delivers `null` to the owner,
and resets the file input's value to the empty string — and since the
uploader state consists of exactly these two fields, nothing else is
modified. -/
theorem c8_clear_resets_preview_value_and_notifies_null
    (s : UploaderState) (url : String) (_h : s.imagePreview = some url) :
    handleClear s = ({ imagePreview := none, inputValue := "" }, none) := rfl

theorem c8_clear_resets_preview_value_and_notifies_null_witness :
    ({ imagePreview := some "data:image/png;base64,AQID", inputValue := "x" } :
        UploaderState).imagePreview = some "data:image/png;base64,AQID" ∧
    handleClear { imagePreview := some "data:image/png;base64,AQID", inputValue := "x" } =
      ({ imagePreview := none, inputValue := "" }, none) :=
  ⟨rfl,
   c8_clear_resets_preview_value_and_notifies_null
     { imagePreview := some "data:image/png;base64,AQID", inputValue := "x" }
     "data:image/png;base64,AQID" rfl⟩

/-- C10: every error thrown by `generateProductPlacementImage` — on the
malformed-input path, the remote-failure path and the model-refusal path
alike — has a message of the form `"Failed to generate image: "` followed
by the underlying error's message, because the catch-all handler re-wraps
every error thrown inside the `try` block, including its own. -/
theorem c10_every_error_wrapped_with_prefix
    (characterImage productImage : ImageFile)
    (remote : RequestPayload → Except String GenResponse) (msg : String)
    (h : (generateProductPlacementImage characterImage productImage remote).1 =
      GenOutcome.error msg) :
    ∃ underlying, msg = "Failed to generate image: " ++ underlying := by
  rw [generate_eq] at h
  rcases hc : convertDataUrlToGeminiPart characterImage.base64Url with e | cp <;>
    simp only [hc] at h
  · exact ⟨e, ((GenOutcome.error.injEq _ _).mp h).symm⟩
  rcases hp : convertDataUrlToGeminiPart productImage.base64Url with e | pp <;>
    simp only [hp] at h
  · exact ⟨e, ((GenOutcome.error.injEq _ _).mp h).symm⟩
  rcases hr : remote (buildRequest cp pp) with e | resp <;>
    simp only [hr] at h
  · exact ⟨e, ((GenOutcome.error.injEq _ _).mp h).symm⟩
  rcases hf : (responseParts resp).find? isInlineImagePart with _ | pt <;>
    simp only [hf] at h
  · by_cases ht : jsTrim (resp.text.getD "") ≠ ""
    · rw [if_pos ht] at h
      exact ⟨"Model response: " ++ jsTrim (resp.text.getD ""),
        ((GenOutcome.error.injEq _ _).mp h).symm⟩
    · rw [if_neg ht] at h
      exact absurd h (by simp)
  · exact absurd h (by simp)

theorem c10_every_error_wrapped_with_prefix_witness :
    (generateProductPlacementImage noCommaImage sampleProdImage emptyRemote).1 =
      GenOutcome.error "Failed to generate image: Invalid data URL" ∧
    ∃ underlying, ("Failed to generate image: Invalid data URL" : String) =
      "Failed to generate image: " ++ underlying :=
  ⟨rfl,
   c10_every_error_wrapped_with_prefix noCommaImage sampleProdImage emptyRemote
     "Failed to generate image: Invalid data URL" rfl⟩

/-! ## Base64 round-trip lemmas -/

theorem charToSextet_sextetToChar : ∀ s < 64, charToSextet (sextetToChar s) = some s := by
  decide

theorem sextetToChar_ne_eq : ∀ s < 64, sextetToChar s ≠ '=' := by
  decide

theorem base64Chars_length : base64Chars.length = 64 := by
  decide

theorem sextetToChar_ne_comma (s : Nat) : sextetToChar s ≠ ',' := by
  by_cases h : s < 64
  · exact (by decide : ∀ t < 64, sextetToChar t ≠ ',') s h
  · unfold sextetToChar
    rw [List.getD_eq_default]
    · decide
    · rw [base64Chars_length]
      omega

theorem comma_ne_sextetToChar (s : Nat) : ',' ≠ sextetToChar s :=
  fun h => sextetToChar_ne_comma s h.symm

/-- Unfolding of `base64EncodeBytes` on a full three-byte group. -/
theorem base64EncodeBytes_cons3 (b1 b2 b3 : Nat) (rest : List Nat) :
    base64EncodeBytes (b1 :: b2 :: b3 :: rest) =
      sextetToChar (b1 / 4) :: sextetToChar (b1 % 4 * 16 + b2 / 16) ::
      sextetToChar (b2 % 16 * 4 + b3 / 64) :: sextetToChar (b3 % 64) ::
      base64EncodeBytes rest := rfl

/-- Unfolding of `base64DecodeChars` on a four-character group. -/
theorem base64DecodeChars_cons4 (c1 c2 c3 c4 : Char) (rest : List Char) :
    base64DecodeChars (c1 :: c2 :: c3 :: c4 :: rest) =
      match charToSextet c1, charToSextet c2 with
      | some s1, some s2 =>
        if c3 = '=' then
          if c4 = '=' ∧ rest = [] then some [s1 * 4 + s2 / 16] else none
        else
          match charToSextet c3 with
          | some s3 =>
            if c4 = '=' then
              if rest = [] then some [s1 * 4 + s2 / 16, s2 % 16 * 16 + s3 / 4]
              else none
            else
              match charToSextet c4, base64DecodeChars rest with
              | some s4, some bs =>
                some ((s1 * 4 + s2 / 16) :: (s2 % 16 * 16 + s3 / 4) ::
                      (s3 % 4 * 64 + s4) :: bs)
              | _, _ => none
          | none => none
      | _, _ => none := rfl

/-- Decoding a full encoded three-byte group recovers the three bytes and
continues with the remainder. -/
theorem decode_encode_block (b1 b2 b3 : Nat)
    (h1 : b1 < 256) (h2 : b2 < 256) (h3 : b3 < 256) (rest : List Nat) :
    base64DecodeChars (base64EncodeBytes (b1 :: b2 :: b3 :: rest)) =
      (base64DecodeChars (base64EncodeBytes rest)).map
        (fun bs => b1 :: b2 :: b3 :: bs) := by
  have e1 := charToSextet_sextetToChar (b1 / 4) (by omega)
  have e2 := charToSextet_sextetToChar (b1 % 4 * 16 + b2 / 16) (by omega)
  have e3 := charToSextet_sextetToChar (b2 % 16 * 4 + b3 / 64) (by omega)
  have e4 := charToSextet_sextetToChar (b3 % 64) (by omega)
  have n3 := sextetToChar_ne_eq (b2 % 16 * 4 + b3 / 64) (by omega)
  have n4 := sextetToChar_ne_eq (b3 % 64) (by omega)
  rw [base64EncodeBytes_cons3, base64DecodeChars_cons4]
  simp only [e1, e2, e3, e4, if_neg n3, if_neg n4]
  rcases obs : base64DecodeChars (base64EncodeBytes rest) with _ | bs
  · rfl
  · simp only [Option.map_some']
    refine congrArg some ?_
    have a1 : b1 / 4 * 4 + (b1 % 4 * 16 + b2 / 16) / 16 = b1 := by omega
    have a2 : (b1 % 4 * 16 + b2 / 16) % 16 * 16 + (b2 % 16 * 4 + b3 / 64) / 4 = b2 := by
      omega
    have a3 : (b2 % 16 * 4 + b3 / 64) % 4 * 64 + b3 % 64 = b3 := by omega
    rw [a1, a2, a3]

/-- Decoding an encoded tail group of one byte recovers it. -/
theorem decode_encode_one (b1 : Nat) (h1 : b1 < 256) :
    base64DecodeChars (base64EncodeBytes [b1]) = some [b1] := by
  have e1 := charToSextet_sextetToChar (b1 / 4) (by omega)
  have e2 := charToSextet_sextetToChar (b1 % 4 * 16) (by omega)
  show base64DecodeChars
    (sextetToChar (b1 / 4) :: sextetToChar (b1 % 4 * 16) :: '=' :: '=' :: []) = _
  rw [base64DecodeChars_cons4]
  simp only [e1, e2, if_pos rfl,
    if_pos (show ('=' = '=') ∧ ([] : List Char) = [] from ⟨rfl, rfl⟩)]
  refine congrArg some ?_
  have a1 : b1 / 4 * 4 + b1 % 4 * 16 / 16 = b1 := by omega
  rw [a1]

/-- Decoding an encoded tail group of two bytes recovers them. -/
theorem decode_encode_two (b1 b2 : Nat) (h1 : b1 < 256) (h2 : b2 < 256) :
    base64DecodeChars (base64EncodeBytes [b1, b2]) = some [b1, b2] := by
  have e1 := charToSextet_sextetToChar (b1 / 4) (by omega)
  have e2 := charToSextet_sextetToChar (b1 % 4 * 16 + b2 / 16) (by omega)
  have e3 := charToSextet_sextetToChar (b2 % 16 * 4) (by omega)
  have n3 := sextetToChar_ne_eq (b2 % 16 * 4) (by omega)
  show base64DecodeChars
    (sextetToChar (b1 / 4) :: sextetToChar (b1 % 4 * 16 + b2 / 16) ::
     sextetToChar (b2 % 16 * 4) :: '=' :: []) = _
  rw [base64DecodeChars_cons4]
  simp only [e1, e2, e3, if_neg n3, if_pos rfl, if_pos rfl]
  refine congrArg some ?_
  have a1 : b1 / 4 * 4 + (b1 % 4 * 16 + b2 / 16) / 16 = b1 := by omega
  have a2 : (b1 % 4 * 16 + b2 / 16) % 16 * 16 + b2 % 16 * 4 / 4 = b2 := by omega
  rw [a1, a2]

/-- Base64 decoding is a left inverse of base64 encoding on byte lists. -/
theorem base64_roundtrip_aux :
    ∀ (n : Nat) (bytes : List Nat), bytes.length ≤ n →
      (∀ b ∈ bytes, b < 256) →
      base64DecodeChars (base64EncodeBytes bytes) = some bytes
  | _, [], _, _ => rfl
  | _, [b1], _, h => decode_encode_one b1 (h b1 (by simp))
  | _, [b1, b2], _, h =>
    decode_encode_two b1 b2 (h b1 (by simp)) (h b2 (by simp))
  | 0, b1 :: b2 :: b3 :: rest, hlen, _ => by simp at hlen
  | n + 1, b1 :: b2 :: b3 :: rest, hlen, h => by
    have ih := base64_roundtrip_aux n rest
      (by simp only [List.length_cons] at hlen; omega)
      (fun b hb => h b (by simp [hb]))
    rw [decode_encode_block b1 b2 b3 (h b1 (by simp)) (h b2 (by simp))
      (h b3 (by simp)) rest, ih]
    rfl

theorem base64_roundtrip (bytes : List Nat) (h : ∀ b ∈ bytes, b < 256) :
    base64DecodeChars (base64EncodeBytes bytes) = some bytes :=
  base64_roundtrip_aux bytes.length bytes (Nat.le_refl _) h

/-- No comma ever appears in a base64 encoding. -/
theorem comma_not_mem_encode :
    ∀ (n : Nat) (bytes : List Nat), bytes.length ≤ n →
      ',' ∉ base64EncodeBytes bytes
  | _, [], _ => by simp [base64EncodeBytes]
  | _, [b1], _ => by
    simp [base64EncodeBytes, comma_ne_sextetToChar]
  | _, [b1, b2], _ => by
    simp [base64EncodeBytes, comma_ne_sextetToChar]
  | 0, b1 :: b2 :: b3 :: rest, hlen => by simp at hlen
  | n + 1, b1 :: b2 :: b3 :: rest, hlen => by
    have ih := comma_not_mem_encode n rest
      (by simp only [List.length_cons] at hlen; omega)
    rw [base64EncodeBytes_cons3]
    intro hmem
    simp only [List.mem_cons] at hmem
    rcases hmem with h | h | h | h | hmem
    · exact sextetToChar_ne_comma _ h.symm
    · exact sextetToChar_ne_comma _ h.symm
    · exact sextetToChar_ne_comma _ h.symm
    · exact sextetToChar_ne_comma _ h.symm
    · exact ih hmem

/-- Encoding a non-empty byte list yields a non-empty character list. -/
theorem encode_ne_nil (bytes : List Nat) (h : bytes ≠ []) :
    base64EncodeBytes bytes ≠ [] := by
  rcases bytes with _ | ⟨b1, _ | ⟨b2, _ | ⟨b3, rest⟩⟩⟩
  · exact absurd rfl h
  · simp [base64EncodeBytes]
  · simp [base64EncodeBytes]
  · rw [base64EncodeBytes_cons3]
    simp

/-! ## The data-URL round trip (C9) -/

theorem stringToList_append (a b : String) :
    (a ++ b).toList = a.toList ++ b.toList := rfl

theorem stringMk_toList (s : String) : String.mk s.toList = s := rfl

theorem stringToList_mk (l : List Char) : (String.mk l).toList = l := rfl

/-- The uploader's data URL, as a character list: the literal header
`data:`, the MIME type, the literal `;base64`, a comma, and the base64
payload. -/
theorem readAsDataURL_toList (f : BrowserFile) :
    (readAsDataURL f).toList =
      ('d' :: 'a' :: 't' :: 'a' :: ':' ::
        (f.type.toList ++ ';' :: ('b' :: 'a' :: 's' :: 'e' :: '6' :: '4' :: []))) ++
      ',' :: base64EncodeBytes f.bytes := by
  show ['d', 'a', 't', 'a', ':'] ++ f.type.toList ++
      ([';', 'b', 'a', 's', 'e', '6', '4', ','] : List Char) ++
      base64EncodeBytes f.bytes = _
  simp [List.append_assoc]

/-- Decoding the uploader's data URL with the service module's own parser
recovers the declared MIME type and the base64 payload. -/
theorem convert_readAsDataURL (f : BrowserFile)
    (hsemi : ';' ∉ f.type.toList) (hcomma : ',' ∉ f.type.toList)
    (htype : f.type.toList ≠ []) (hbytes : f.bytes ≠ []) :
    convertDataUrlToGeminiPart (readAsDataURL f) =
      Except.ok { data := String.mk (base64EncodeBytes f.bytes), mimeType := f.type } := by
  have hA : ',' ∉ ('d' :: 'a' :: 't' :: 'a' :: ':' ::
      (f.type.toList ++ ';' :: ('b' :: 'a' :: 's' :: 'e' :: '6' :: '4' :: []))) := by
    intro hm
    rcases List.mem_cons.mp hm with h | hm
    · exact absurd h (by decide)
    rcases List.mem_cons.mp hm with h | hm
    · exact absurd h (by decide)
    rcases List.mem_cons.mp hm with h | hm
    · exact absurd h (by decide)
    rcases List.mem_cons.mp hm with h | hm
    · exact absurd h (by decide)
    rcases List.mem_cons.mp hm with h | hm
    · exact absurd h (by decide)
    rcases List.mem_append.mp hm with h | h
    · exact hcomma h
    · exact absurd h (by decide)
  rw [convert_eq, readAsDataURL_toList,
    splitOnComma_append _ _ hA,
    splitOnComma_of_not_mem _ (comma_not_mem_encode f.bytes.length f.bytes (Nat.le_refl _))]
  simp only [List.headD_cons, List.getElem?_cons_succ, List.getElem?_cons_zero]
  rw [matchMime_header _ _ hsemi]
  simp only []
  rw [if_neg (fun h => h.elim htype (encode_ne_nil f.bytes hbytes))]
  rw [stringMk_toList]

/-- C9: for every valid image file (an `image/`-typed MIME type free of
separators, with at least one byte, each byte below 256), the data URL
the Uploader produces decodes — by the service module's own parser — back
to the declared MIME type and a base64 payload, and base64-decoding that
payload reproduces the original file's bytes. -/
theorem c9_data_url_roundtrip (s : UploaderState) (f : BrowserFile)
    (himg : "image/".toList.isPrefixOf f.type.toList = true)
    (hsemi : ';' ∉ f.type.toList) (hcomma : ',' ∉ f.type.toList)
    (hbytes : f.bytes ≠ []) (hlt : ∀ b ∈ f.bytes, b < 256) :
    (handleFileChange s (some f)).2 =
      some { file := f, base64Url := readAsDataURL f } ∧
    convertDataUrlToGeminiPart (readAsDataURL f) =
      Except.ok { data := String.mk (base64EncodeBytes f.bytes), mimeType := f.type } ∧
    base64DecodeChars (base64EncodeBytes f.bytes) = some f.bytes := by
  have htype : f.type.toList ≠ [] := by
    intro h0
    rw [h0] at himg
    exact absurd himg (by decide)
  refine ⟨?_, convert_readAsDataURL f hsemi hcomma htype hbytes,
    base64_roundtrip f.bytes hlt⟩
  simp only [handleFileChange]
  rw [if_pos himg]

theorem c9_data_url_roundtrip_witness :
    (handleFileChange { imagePreview := none, inputValue := "" }
        (some { type := "image/png", bytes := [137, 80, 78] })).2 =
      some { file := { type := "image/png", bytes := [137, 80, 78] },
             base64Url := readAsDataURL { type := "image/png", bytes := [137, 80, 78] } } ∧
    convertDataUrlToGeminiPart
        (readAsDataURL { type := "image/png", bytes := [137, 80, 78] }) =
      Except.ok { data := String.mk (base64EncodeBytes [137, 80, 78]),
                  mimeType := "image/png" } ∧
    base64DecodeChars (base64EncodeBytes [137, 80, 78]) = some [137, 80, 78] :=
  c9_data_url_roundtrip { imagePreview := none, inputValue := "" }
    { type := "image/png", bytes := [137, 80, 78] }
    (by decide) (by decide) (by decide) (by decide) (by decide)

end NanoBanana
